import Mathlib

/-!
# Verification of the steelworks weekly-defect reporting pipeline

Shallow embedding of the ingestion / data-quality pipeline of the
`cs480_steelworks` repository and proofs about it.

The embedding follows the TypeScript sources:

* `src/utils/date.ts` — `getWeekStartUTC`, `parseIsoDateUTC`, `toIsoDateUTC`.
  A UTC-midnight JavaScript `Date` is represented by its epoch day number
  (an `Int`, days since 1970-01-01 UTC).  `Date.prototype.getUTCDay` on such
  a value is `(day + 4) % 7` (1970-01-01 was a Thursday), and
  `Date.UTC(y, m, dom - k)` in the source normalizes day-of-month roll-over,
  which on epoch day numbers is plain subtraction of `k` days.
* `src/services/ingestService.ts` — `resolveLotKey`, `ensureIssueType`,
  `deriveProductionQty`, `deriveShippingQty`, `processProductionLogs`,
  `processShippingLogs`, `processAllLogs`.
* `src/db/queries.ts` — the SQL statements those functions execute are
  modelled as list operations over an explicit database state `DB`.
  Postgres serial keys are `Nat`s; SQL `NULL`able columns are `Option`s.
  The DB normalization functions `ops.normalize_label` /
  `ops.normalize_lot_id` live in `schema.sql`, outside the processing code;
  the model is parameterized over them (`nl`, `nn` below), so every theorem
  holds for any normalization behavior.
* `src/routes/...` (report router) — the input-validation prefix of each
  Express handler, up to the point where it either responds 400 or issues
  its storage query.

JavaScript truthiness checks in the source (`!row.run_date`,
`if (params.lotKey)`, ...) are modelled exactly: a string is falsy when
absent or empty, a number is falsy when absent or zero.
-/

/-! ## Date utilities (`src/utils/date.ts`) -/

/-- The `getWeekStartUTC` from `src/utils/date.ts`, on epoch day numbers:
`utcDay = date.getUTCDay()`, `daysSinceMonday = (utcDay + 6) % 7`, and the
result is the date minus `daysSinceMonday` days. -/

def getWeekStartUTC (d : Int) : Int :=
  d - (((d + 4) % 7 + 6) % 7)

/-- Gregorian leap-year test (as used by calendar arithmetic backing the
JavaScript `Date` object). -/

def isLeapYear (y : Nat) : Bool :=
  (y % 4 == 0 && y % 100 != 0) || y % 400 == 0

/-- Days in month `m` (1–12) of year `y`. -/

def daysInMonth (y m : Nat) : Nat :=
  if m = 2 then (if isLeapYear y then 29 else 28)
  else if m = 4 ∨ m = 6 ∨ m = 9 ∨ m = 11 then 30
  else 31

/-- Days in the `n` calendar years `[1970, 1970 + n)`. -/

def yearsDaysFrom1970 : Nat → Nat
  | 0 => 0
  | n + 1 => yearsDaysFrom1970 n + (if isLeapYear (1970 + n) then 366 else 365)

/-- Days in months `[1, m)` of year `y` (so `0` for January). -/

def daysBeforeMonth (y : Nat) : Nat → Nat
  | 0 => 0
  | 1 => 0
  | m + 1 => daysBeforeMonth y m + daysInMonth y m

/-- Epoch day number (days since 1970-01-01 UTC) of the civil date
`y-m-d`, for years `≥ 1970` — the range every concrete date in this
development lives in.  `epochDay 1970 1 1 = 0`. -/

def epochDay (y m d : Nat) : Int :=
  ((yearsDaysFrom1970 (y - 1970) + daysBeforeMonth y m + (d - 1) : Nat) : Int)

/-- Numeric value of an ASCII digit character. -/

def digitVal (c : Char) : Nat := c.toNat - 48

/-- The `parseIsoDateUTC` from `src/utils/date.ts`: enforce the strict
`^\d{4}-\d{2}-\d{2}$` shape, then reject component combinations that make
`new Date("YYYY-MM-DDT00:00:00.000Z")` an Invalid Date (month outside 1–12
or day outside the month's range).  Returns the parsed civil date. -/

def parseIsoDateUTC (s : String) : Option (Nat × Nat × Nat) :=
  match s.toList with
  | [y1, y2, y3, y4, h1, m1, m2, h2, d1, d2] =>
    if y1.isDigit && y2.isDigit && y3.isDigit && y4.isDigit &&
       h1 == '-' && m1.isDigit && m2.isDigit &&
       h2 == '-' && d1.isDigit && d2.isDigit then
      let y := ((digitVal y1 * 10 + digitVal y2) * 10 + digitVal y3) * 10 + digitVal y4
      let m := digitVal m1 * 10 + digitVal m2
      let d := digitVal d1 * 10 + digitVal d2
      if 1 ≤ m ∧ m ≤ 12 ∧ 1 ≤ d ∧ d ≤ daysInMonth y m then
        some (y, m, d)
      else
        none
    else
      none
  | _ => none

/-! ## Data model (`db/schema.sql` tables as read and written through
`src/db/queries.ts`) -/

/-- The `event_source` of `ops.fact_issue_event` / `source` of
`ops.dim_issue_type`. -/

inductive Source where
  | PRODUCTION
  | SHIPPING
deriving DecidableEq, Repr

/-- The `source` of `ops.data_quality_flag`. -/

inductive SourceKind where
  | PRODUCTION_LOG
  | SHIPPING_LOG
deriving DecidableEq, Repr

/-- The `flag_type` of `ops.data_quality_flag`. -/

inductive FlagType where
  | UNMATCHED_LOT_ID
  | CONFLICT
  | INCOMPLETE_DATA
deriving DecidableEq, Repr

/-- A row of `ops.dim_lot` (columns used by the service). -/

structure Lot where
  lot_key : Nat
  lot_id_norm : String
deriving DecidableEq, Repr

/-- A row of `ops.dim_issue_type`. -/

structure IssueType where
  issue_type_key : Nat
  source : Source
  issue_label : String
  issue_label_norm : String
deriving DecidableEq, Repr

/-- A row of `ops.lot_line_assignment` (columns used by the service). -/

structure Assignment where
  lot_key : Nat
  production_line_key : Nat
deriving DecidableEq, Repr

/-- A row of `ops.fact_production_log` (columns read by the service).
`run_date` is carried as its ISO string (`coerceDateToIso` output). -/

structure ProdRow where
  production_log_key : Nat
  run_date : Option String
  production_line_key : Option Nat
  lot_key : Option Nat
  lot_id_raw : Option String
  primary_issue : Option String
  line_issue_flag : Option Bool
deriving DecidableEq, Repr

/-- A row of `ops.fact_shipping_log` (columns read by the service). -/

structure ShipRow where
  shipping_log_key : Nat
  ship_date : Option String
  lot_key : Option Nat
  lot_id_raw : Option String
  hold_reason : Option String
deriving DecidableEq, Repr

/-- A row of `ops.fact_issue_event` (`INSERT_ISSUE_EVENT_SQL` columns).
`week_start_date` is carried as an epoch day number. -/

structure IssueEvent where
  event_source : Source
  event_date : String
  week_start_date : Int
  production_line_key : Nat
  lot_key : Nat
  issue_type_key : Nat
  qty_impacted : Nat
  production_log_key : Option Nat
  shipping_log_key : Option Nat
deriving DecidableEq, Repr

/-- A row of `ops.data_quality_flag` (`INSERT_DQ_FLAG_SQL` columns; the
`issue_event_key` parameter is always passed as `NULL` and omitted). -/

structure DataQualityFlag where
  flag_type : FlagType
  source : SourceKind
  flag_reason : String
  missing_fields : Option String
  lot_id_raw : Option String
  lot_id_norm : Option String
  production_log_key : Option Nat
  shipping_log_key : Option Nat
deriving DecidableEq, Repr

/-- The mutable storage state the service reads and writes.  Lists keep
table rows in insertion order; for the two raw-log tables that is ascending
key order, matching the `ORDER BY ... _key` of the selection queries
(serial keys are assigned in insertion order).  `nextIssueTypeKey` models
the serial sequence behind `ops.dim_issue_type`. -/

structure DB where
  lots : List Lot
  issueTypes : List IssueType
  nextIssueTypeKey : Nat
  assignments : List Assignment
  prodLogs : List ProdRow
  shipLogs : List ShipRow
  events : List IssueEvent
  flags : List DataQualityFlag
deriving DecidableEq, Repr

/-! ## JavaScript truthiness helpers -/

/-- JS truthiness of a nullable string: `null`, `undefined` and `""` are
falsy. -/

def strFalsy : Option String → Bool
  | none => true
  | some s => s == ""

/-- JS truthiness of a nullable number: `null`, `undefined` and `0` are
falsy. -/

def natFalsy : Option Nat → Bool
  | none => true
  | some n => n == 0

/-! ## `src/services/ingestService.ts` -/

/-- The `deriveProductionQty`: `line_issue_flag` true ↦ 1, false ↦ 0, absent
↦ 1. -/

def deriveProductionQty (line_issue_flag : Option Bool) : Nat :=
  match line_issue_flag with
  | some true => 1
  | some false => 0
  | none => 1

/-- The `deriveShippingQty`: a fixed 1 per shipping record. -/

def deriveShippingQty : Nat := 1

/-- The `FIND_LOT_BY_KEY_SQL`: first `ops.dim_lot` row with the given key. -/

def findLotByKey (db : DB) (k : Nat) : Option Lot :=
  db.lots.find? (fun l => l.lot_key == k)

/-- The `FIND_LOT_SQL`: first `ops.dim_lot` row with the given normalized id. -/

def findLotByNorm (db : DB) (nrm : String) : Option Lot :=
  db.lots.find? (fun l => l.lot_id_norm == nrm)

/-- The `UPDATE_PROD_LOG_LOT_SQL` / `UPDATE_SHIP_LOG_LOT_SQL`: backfill the
resolved `lot_key` onto the raw log row with the given key. -/

def backfillLotKey (db : DB) (src : SourceKind) (sourceKey resolvedKey : Nat) : DB :=
  match src with
  | .PRODUCTION_LOG =>
    { db with prodLogs := db.prodLogs.map (fun r =>
        if r.production_log_key == sourceKey then { r with lot_key := some resolvedKey } else r) }
  | .SHIPPING_LOG =>
    { db with shipLogs := db.shipLogs.map (fun r =>
        if r.shipping_log_key == sourceKey then { r with lot_key := some resolvedKey } else r) }

/-- The `resolveLotKey` from `ingestService.ts`.  `nn` is the DB function
`ops.normalize_lot_id`.  Returns `none` for the `"UNMATCHED"` sentinel,
otherwise the resolved `lot_key` together with the `lot_id_norm` context,
plus the possibly-backfilled state. -/

def resolveLotKey (nn : String → Option String) (db : DB) (src : SourceKind)
    (sourceKey : Nat) (lotKey : Option Nat) (lotIdRaw : Option String) :
    Option (Nat × Option String) × DB :=
  -- `if (params.lotKey)`: reuse a truthy pre-resolved key.
  if !natFalsy lotKey then
    let k := lotKey.getD 0
    (some (k, (findLotByKey db k).map (fun l => l.lot_id_norm)), db)
  -- `if (!params.lotIdRaw)`.
  else if strFalsy lotIdRaw then
    (none, db)
  else
    match nn (lotIdRaw.getD "") with
    | none => (none, db)
    | some lotIdNorm =>
      -- `if (!lotIdNorm)`.
      if lotIdNorm == "" then (none, db)
      else
        match findLotByNorm db lotIdNorm with
        | none => (none, db)
        | some found =>
          (some (found.lot_key, some lotIdNorm),
            backfillLotKey db src sourceKey found.lot_key)

/-- The `ensureIssueType` from `ingestService.ts` with `UPSERT_ISSUE_TYPE_SQL`.
`nl` is the DB function `ops.normalize_label`.  The source signals an
invalid label with the sentinel `-1`; the model returns `none` for that
branch and `some key` otherwise (the caller's test `issueTypeKey < 0`
becomes `Option.isNone`).  `ON CONFLICT (source, issue_label_norm) DO
UPDATE SET issue_label = ops.dim_issue_type.issue_label` keeps the stored
row unchanged and returns its key. -/

def ensureIssueType (nl : String → Option String) (db : DB) (source : Source)
    (issueLabel : String) : Option Nat × DB :=
  match nl issueLabel with
  | none => (none, db)
  | some normalized =>
    -- `if (!normalized)`.
    if normalized == "" then (none, db)
    else
      match db.issueTypes.find? (fun t =>
          t.source == source && t.issue_label_norm == normalized) with
      | some t => (some t.issue_type_key, db)
      | none =>
        let k := db.nextIssueTypeKey
        (some k,
          { db with
            issueTypes := db.issueTypes ++ [⟨k, source, issueLabel, normalized⟩],
            nextIssueTypeKey := k + 1 })

/-- The `FIND_LOT_ASSIGNMENT_SQL` followed by
`assignmentResult.rows[0]?.production_line_key ?? null`. -/

def findLotAssignment (db : DB) (lotKey : Nat) : Option Nat :=
  (db.assignments.find? (fun a => a.lot_key == lotKey)).map
    (fun a => a.production_line_key)

/-- The `INSERT_LOT_ASSIGNMENT_SQL`. -/

def insertLotAssignment (db : DB) (lotKey lineKey : Nat) : DB :=
  { db with assignments := db.assignments ++ [⟨lotKey, lineKey⟩] }

/-- The `INSERT_DQ_FLAG_SQL` (`insertFlag` in the source). -/

def insertFlag (db : DB) (f : DataQualityFlag) : DB :=
  { db with flags := db.flags ++ [f] }

/-- The `INSERT_ISSUE_EVENT_SQL`. -/

def insertIssueEvent (db : DB) (e : IssueEvent) : DB :=
  { db with events := db.events ++ [e] }

/-! ## Per-record classification (the loop bodies of
`processProductionLogs` / `processShippingLogs`) -/

/-- Terminal decision for one raw record: the loop body of the source
either inserts exactly one data-quality flag and counts the record as
`flagged`, counts it as `processed` without inserting anything (the
zero-quantity `continue`), or inserts exactly one issue event and counts it
as `processed`.  The carried `DB` holds the side effects performed before
the decision (lot back-fill, dimension upsert, ledger write). -/

inductive RowOutcome where
  | flagRow (f : DataQualityFlag) (db : DB)
  | acceptNoEvent (db : DB)
  | acceptEvent (e : IssueEvent) (db : DB)
deriving DecidableEq, Repr

/-- The body of the `for` loop of `processProductionLogs`, up to the point
where it inserts a flag (`flagged += 1; continue`), skips a zero-quantity
record (`processed += 1; continue`), or inserts an issue event
(`processed += 1`).  `nl` / `nn` are `ops.normalize_label` /
`ops.normalize_lot_id`. -/

def classifyProd (nl nn : String → Option String) (db : DB) (row : ProdRow) :
    RowOutcome :=
  -- `if (!row.run_date || !row.production_line_key)`.
  if strFalsy row.run_date || natFalsy row.production_line_key then
    .flagRow
      { flag_type := .INCOMPLETE_DATA, source := .PRODUCTION_LOG,
        flag_reason := "Missing run_date or production_line_key",
        missing_fields := some "run_date, production_line_key",
        lot_id_raw := row.lot_id_raw, lot_id_norm := none,
        production_log_key := some row.production_log_key,
        shipping_log_key := none } db
  else
    match resolveLotKey nn db .PRODUCTION_LOG row.production_log_key
        row.lot_key row.lot_id_raw with
    | (none, db1) =>
      .flagRow
        { flag_type := .UNMATCHED_LOT_ID, source := .PRODUCTION_LOG,
          flag_reason := "Missing or invalid Lot ID",
          missing_fields := some "lot_id",
          lot_id_raw := row.lot_id_raw, lot_id_norm := none,
          production_log_key := some row.production_log_key,
          shipping_log_key := none } db1
    | (some (lotKey, lotIdNorm), db1) =>
      -- `if (!row.primary_issue)`.
      if strFalsy row.primary_issue then
        .flagRow
          { flag_type := .INCOMPLETE_DATA, source := .PRODUCTION_LOG,
            flag_reason := "Missing defect type (primary_issue)",
            missing_fields := some "primary_issue",
            lot_id_raw := row.lot_id_raw, lot_id_norm := lotIdNorm,
            production_log_key := some row.production_log_key,
            shipping_log_key := none } db1
      else
        match ensureIssueType nl db1 .PRODUCTION (row.primary_issue.getD "") with
        | (none, db2) =>
          .flagRow
            { flag_type := .INCOMPLETE_DATA, source := .PRODUCTION_LOG,
              flag_reason := "Invalid defect type label",
              missing_fields := some "primary_issue",
              lot_id_raw := row.lot_id_raw, lot_id_norm := lotIdNorm,
              production_log_key := some row.production_log_key,
              shipping_log_key := none } db2
        | (some issueTypeKey, db2) =>
          let lineKey := row.production_line_key.getD 0
          let assignedLineKey := findLotAssignment db2 lotKey
          -- `if (assignedLineKey && Number(assignedLineKey) !== Number(row.production_line_key))`.
          if !natFalsy assignedLineKey && assignedLineKey.getD 0 != lineKey then
            .flagRow
              { flag_type := .CONFLICT, source := .PRODUCTION_LOG,
                flag_reason := "Lot ID mapped to multiple production lines",
                missing_fields := none,
                lot_id_raw := row.lot_id_raw, lot_id_norm := lotIdNorm,
                production_log_key := some row.production_log_key,
                shipping_log_key := none } db2
          else
            -- `if (!assignedLineKey)`: record the first observed line.
            let db3 := if natFalsy assignedLineKey then
              insertLotAssignment db2 lotKey lineKey else db2
            let qtyImpacted := deriveProductionQty row.line_issue_flag
            -- `if (qtyImpacted <= 0)`: skip zero-quantity defects (AC7).
            if qtyImpacted ≤ 0 then
              .acceptNoEvent db3
            else
              let runDateIso := row.run_date.getD ""
              match parseIsoDateUTC runDateIso with
              | none =>
                .flagRow
                  { flag_type := .INCOMPLETE_DATA, source := .PRODUCTION_LOG,
                    flag_reason := "Invalid run_date",
                    missing_fields := some "run_date",
                    lot_id_raw := row.lot_id_raw, lot_id_norm := lotIdNorm,
                    production_log_key := some row.production_log_key,
                    shipping_log_key := none } db3
              | some (y, m, d) =>
                .acceptEvent
                  { event_source := .PRODUCTION,
                    event_date := runDateIso,
                    week_start_date := getWeekStartUTC (epochDay y m d),
                    production_line_key := lineKey,
                    lot_key := lotKey,
                    issue_type_key := issueTypeKey,
                    qty_impacted := qtyImpacted,
                    production_log_key := some row.production_log_key,
                    shipping_log_key := none } db3

/-- The body of the `for` loop of `processShippingLogs`. -/

def classifyShip (nl nn : String → Option String) (db : DB) (row : ShipRow) :
    RowOutcome :=
  -- `if (!row.ship_date)`.
  if strFalsy row.ship_date then
    .flagRow
      { flag_type := .INCOMPLETE_DATA, source := .SHIPPING_LOG,
        flag_reason := "Missing ship_date",
        missing_fields := some "ship_date",
        lot_id_raw := row.lot_id_raw, lot_id_norm := none,
        production_log_key := none,
        shipping_log_key := some row.shipping_log_key } db
  else
    match resolveLotKey nn db .SHIPPING_LOG row.shipping_log_key
        row.lot_key row.lot_id_raw with
    | (none, db1) =>
      .flagRow
        { flag_type := .UNMATCHED_LOT_ID, source := .SHIPPING_LOG,
          flag_reason := "Missing or invalid Lot ID",
          missing_fields := some "lot_id",
          lot_id_raw := row.lot_id_raw, lot_id_norm := none,
          production_log_key := none,
          shipping_log_key := some row.shipping_log_key } db1
    | (some (lotKey, lotIdNorm), db1) =>
      let assignedLineKey := findLotAssignment db1 lotKey
      -- `if (!assignedLineKey)`: the line cannot be inferred.
      if natFalsy assignedLineKey then
        .flagRow
          { flag_type := .INCOMPLETE_DATA, source := .SHIPPING_LOG,
            flag_reason := "Missing production line for lot assignment",
            missing_fields := some "production_line",
            lot_id_raw := row.lot_id_raw, lot_id_norm := lotIdNorm,
            production_log_key := none,
            shipping_log_key := some row.shipping_log_key } db1
      else
        -- `if (!row.hold_reason)`.
        if strFalsy row.hold_reason then
          .flagRow
            { flag_type := .INCOMPLETE_DATA, source := .SHIPPING_LOG,
              flag_reason := "Missing defect type (hold_reason)",
              missing_fields := some "hold_reason",
              lot_id_raw := row.lot_id_raw, lot_id_norm := lotIdNorm,
              production_log_key := none,
              shipping_log_key := some row.shipping_log_key } db1
        else
          match ensureIssueType nl db1 .SHIPPING (row.hold_reason.getD "") with
          | (none, db2) =>
            .flagRow
              { flag_type := .INCOMPLETE_DATA, source := .SHIPPING_LOG,
                flag_reason := "Invalid defect type label",
                missing_fields := some "hold_reason",
                lot_id_raw := row.lot_id_raw, lot_id_norm := lotIdNorm,
                production_log_key := none,
                shipping_log_key := some row.shipping_log_key } db2
          | (some issueTypeKey, db2) =>
            let qtyImpacted := deriveShippingQty
            if qtyImpacted ≤ 0 then
              .acceptNoEvent db2
            else
              let shipDateIso := row.ship_date.getD ""
              match parseIsoDateUTC shipDateIso with
              | none =>
                .flagRow
                  { flag_type := .INCOMPLETE_DATA, source := .SHIPPING_LOG,
                    flag_reason := "Invalid ship_date",
                    missing_fields := some "ship_date",
                    lot_id_raw := row.lot_id_raw, lot_id_norm := lotIdNorm,
                    production_log_key := none,
                    shipping_log_key := some row.shipping_log_key } db2
              | some (y, m, d) =>
                .acceptEvent
                  { event_source := .SHIPPING,
                    event_date := shipDateIso,
                    week_start_date := getWeekStartUTC (epochDay y m d),
                    production_line_key := assignedLineKey.getD 0,
                    lot_key := lotKey,
                    issue_type_key := issueTypeKey,
                    qty_impacted := qtyImpacted,
                    production_log_key := none,
                    shipping_log_key := some row.shipping_log_key } db2

/-! ## Batch orchestration -/

/-- Running totals of one pass: the state plus the `processed` / `flagged`
counters of the source. -/

structure RunTotals where
  db : DB
  processed : Nat
  flagged : Nat
deriving DecidableEq, Repr

/-- One iteration of the `processProductionLogs` loop: classify the row,
persist its outcome, bump exactly one counter. -/

def stepProd (nl nn : String → Option String) (acc : RunTotals) (row : ProdRow) :
    RunTotals :=
  match classifyProd nl nn acc.db row with
  | .flagRow f db => ⟨insertFlag db f, acc.processed, acc.flagged + 1⟩
  | .acceptNoEvent db => ⟨db, acc.processed + 1, acc.flagged⟩
  | .acceptEvent e db => ⟨insertIssueEvent db e, acc.processed + 1, acc.flagged⟩

/-- One iteration of the `processShippingLogs` loop. -/

def stepShip (nl nn : String → Option String) (acc : RunTotals) (row : ShipRow) :
    RunTotals :=
  match classifyShip nl nn acc.db row with
  | .flagRow f db => ⟨insertFlag db f, acc.processed, acc.flagged + 1⟩
  | .acceptNoEvent db => ⟨db, acc.processed + 1, acc.flagged⟩
  | .acceptEvent e db => ⟨insertIssueEvent db e, acc.processed + 1, acc.flagged⟩

/-- Does some issue event reference production log `k`?
(The `LEFT JOIN ... WHERE ie.production_log_key IS NULL` predicate of
`UNPROCESSED_PRODUCTION_LOGS_SQL`, negated.) -/

def hasProdEvent (db : DB) (k : Nat) : Bool :=
  db.events.any (fun e => e.production_log_key == some k)

/-- Does some issue event reference shipping log `k`? -/

def hasShipEvent (db : DB) (k : Nat) : Bool :=
  db.events.any (fun e => e.shipping_log_key == some k)

/-- The `UNPROCESSED_PRODUCTION_LOGS_SQL`: production logs with no referencing
issue event, in ascending key order, `LIMIT batchSize`. -/

def selectProdBatch (db : DB) (batchSize : Nat) : List ProdRow :=
  (db.prodLogs.filter (fun r => !hasProdEvent db r.production_log_key)).take batchSize

/-- The `UNPROCESSED_SHIPPING_LOGS_SQL`. -/

def selectShipBatch (db : DB) (batchSize : Nat) : List ShipRow :=
  (db.shipLogs.filter (fun r => !hasShipEvent db r.shipping_log_key)).take batchSize

/-- The `processProductionLogs`: fetch one batch, process it row by row inside
one transaction (the model commits iff the whole fold runs, which it
always does), and return the counters. -/

def processProductionLogs (nl nn : String → Option String) (db : DB)
    (batchSize : Nat) : DB × Nat × Nat :=
  let r := (selectProdBatch db batchSize).foldl (stepProd nl nn) ⟨db, 0, 0⟩
  (r.db, r.processed, r.flagged)

/-- The `processShippingLogs`. -/

def processShippingLogs (nl nn : String → Option String) (db : DB)
    (batchSize : Nat) : DB × Nat × Nat :=
  let r := (selectShipBatch db batchSize).foldl (stepShip nl nn) ⟨db, 0, 0⟩
  (r.db, r.processed, r.flagged)

/-- The `processAllLogs`: the production pass, then the shipping pass on the
state the production pass committed; returns both result pairs. -/

def processAllLogs (nl nn : String → Option String) (db : DB)
    (batchSize : Nat) : DB × (Nat × Nat) × (Nat × Nat) :=
  let p := processProductionLogs nl nn db batchSize
  let s := processShippingLogs nl nn p.1 batchSize
  (s.1, p.2, s.2)

/-! ## Report router input validation (`src/routes` report router) -/

/-- Result of the validation prefix of a report handler: either a 400
client-input response (no storage access, no rows), or the argument tuple
handed to the storage query. -/

inductive QueryOutcome (α : Type) where
  | clientError (message : String)
  | storageQuery (args : α)
deriving DecidableEq, Repr

/-- The `/reports/weekly-summary`: apply the default range for absent
parameters, then validate both dates before querying. -/

def weeklySummaryRoute (startWeek endWeek : Option String)
    (defaultStart defaultEnd : String) : QueryOutcome (String × String) :=
  let rangeStart := startWeek.getD defaultStart
  let rangeEnd := endWeek.getD defaultEnd
  if (parseIsoDateUTC rangeStart).isNone || (parseIsoDateUTC rangeEnd).isNone then
    .clientError "start_week and end_week must be YYYY-MM-DD"
  else
    .storageQuery (rangeStart, rangeEnd)

/-- The `/reports/flags`: same validation prefix as the weekly summary. -/

def flagCountsRoute (startWeek endWeek : Option String)
    (defaultStart defaultEnd : String) : QueryOutcome (String × String) :=
  let rangeStart := startWeek.getD defaultStart
  let rangeEnd := endWeek.getD defaultEnd
  if (parseIsoDateUTC rangeStart).isNone || (parseIsoDateUTC rangeEnd).isNone then
    .clientError "start_week and end_week must be YYYY-MM-DD"
  else
    .storageQuery (rangeStart, rangeEnd)

/-- The `/reports/weekly-details`: all three filters are required, then the
week must be a valid date. -/

def weeklyDetailsRoute (weekStart lineName defectType : Option String) :
    QueryOutcome (String × String × String) :=
  if strFalsy weekStart || strFalsy lineName || strFalsy defectType then
    .clientError "week_start, line_name, and defect_type are required"
  else if (parseIsoDateUTC (weekStart.getD "")).isNone then
    .clientError "week_start must be YYYY-MM-DD"
  else
    .storageQuery (weekStart.getD "", lineName.getD "", defectType.getD "")

/-! ## Concrete fixtures used by witnesses and counterexamples -/

/-- A concrete normalization function (stands in for the out-of-scope
`schema.sql` `ops.normalize_*` functions in concrete scenarios: empty text
is unrepresentable, everything else is already canonical). -/

def normId : String → Option String := fun s => if s = "" then none else some s

/-- Empty storage state (serial sequence at 1, as in Postgres). -/

def emptyDB : DB := ⟨[], [], 1, [], [], [], [], []⟩

/-- Production record: lot 1 observed on line 1. -/

def prodRowLineA : ProdRow :=
  ⟨1, some "2026-02-02", some 1, some 1, none, some "Scratch", some true⟩

/-- Production record: the same lot claimed on line 2. -/

def prodRowLineB : ProdRow :=
  ⟨2, some "2026-02-03", some 2, some 1, none, some "Scratch", some true⟩

/-- Lot master with one lot and no assignments. -/

def dbLotOnly : DB := { emptyDB with lots := [⟨1, "lot100"⟩] }

/-- Lot master with lot 1 already assigned to line 1. -/

def dbLotAssigned : DB := { dbLotOnly with assignments := [⟨1, 1⟩] }

/-- Shipping record for lot 1 with a hold reason. -/

def shipRowHold : ShipRow :=
  ⟨1, some "2026-02-03", some 1, some "LOT-100", some "Late"⟩

/-- Shipping scenario: the lot exists but was never assigned to a line. -/

def dbShipNoAssign : DB := { emptyDB with lots := [⟨1, "lot100"⟩], shipLogs := [shipRowHold] }

/-- Shipping scenario: the lot is assigned to line 7. -/

def dbShipAssigned : DB := { dbShipNoAssign with assignments := [⟨1, 7⟩] }

/-- Production record whose boolean line-issue indicator is false: the
computed quantity is 0. -/

def prodRowZeroQty : ProdRow :=
  ⟨1, some "2026-02-06", some 1, some 1, some "LOT-200", some "Dent", some false⟩

/-- State holding the zero-quantity record and its lot. -/

def dbZeroQty : DB := { emptyDB with lots := [⟨1, "lot200"⟩], prodLogs := [prodRowZeroQty] }

/-- Production record with a blank defect label — it gets flagged. -/

def prodRowNoIssue : ProdRow :=
  ⟨1, some "2026-02-05", some 1, some 1, some "LOT-200", none, some true⟩

/-- State holding only the flagged-to-be record and its lot. -/

def dbNoIssue : DB := { emptyDB with lots := [⟨1, "lot200"⟩], prodLogs := [prodRowNoIssue] }

/-! ## C1 / C2 — outcome accounting across runs -/

def outcomeDB : RowOutcome → DB
  | .flagRow _ db => db
  | .acceptNoEvent db => db
  | .acceptEvent _ db => db

def prodEventCount (db : DB) (k : Nat) : Nat :=
  db.events.countP (fun e => e.production_log_key == some k)

def prodFlagCount (db : DB) (k : Nat) : Nat :=
  db.flags.countP (fun f => f.production_log_key == some k)

def shipEventCount (db : DB) (k : Nat) : Nat :=
  db.events.countP (fun e => e.shipping_log_key == some k)

def shipFlagCount (db : DB) (k : Nat) : Nat :=
  db.flags.countP (fun f => f.shipping_log_key == some k)

def prodRowBadLot : ProdRow :=
  ⟨1, some "2026-02-05", some 1, none, some "LOT-999", some "Scratch", some true⟩

def dbReflag : DB := { emptyDB with prodLogs := [prodRowBadLot] }

def dbEvented : DB :=
  { emptyDB with
    prodLogs := [prodRowLineA],
    events := [⟨.PRODUCTION, "2026-02-02", 20486, 1, 1, 1, 1, some 1, none⟩] }

/-! ## C5 — week bucketing -/

/-- C5: `getWeekStartUTC` is a pure function of the date and returns the
Monday on or before it (in UTC): the distance `d - weekStart d` is between
0 and 6 days, `weekStart` is idempotent, `weekStart(2026-02-04) =
2026-02-02`, and every date in `[2026-02-02, 2026-02-08]` buckets to
`2026-02-02`. -/

theorem getWeekStartUTC_monday_bucketing :
    (∀ d : Int, 0 ≤ d - getWeekStartUTC d ∧ d - getWeekStartUTC d ≤ 6 ∧
      getWeekStartUTC (getWeekStartUTC d) = getWeekStartUTC d) ∧
    getWeekStartUTC (epochDay 2026 2 4) = epochDay 2026 2 2 ∧
    (∀ d : Int, epochDay 2026 2 2 ≤ d → d ≤ epochDay 2026 2 8 →
      getWeekStartUTC d = epochDay 2026 2 2) := by
  have h2 : epochDay 2026 2 2 = 20486 := by decide
  have h8 : epochDay 2026 2 8 = 20492 := by decide
  refine ⟨fun d => ?_, by decide, fun d hl hu => ?_⟩
  · unfold getWeekStartUTC
    refine ⟨by omega, by omega, by omega⟩
  · rw [h2, h8] at *
    unfold getWeekStartUTC
    omega

/-- Witness for C5: the bucketing theorem applied at 2026-02-05. -/

theorem getWeekStartUTC_monday_bucketing_witness :
    getWeekStartUTC (epochDay 2026 2 5) = epochDay 2026 2 2 :=
  getWeekStartUTC_monday_bucketing.2.2 (epochDay 2026 2 5) (by decide) (by decide)

/-! ## C9 — query-boundary input validation -/

/-- C9: every reporting endpoint rejects malformed input with a
client-input error before issuing its storage query (the route model
returns `clientError`, which carries no query arguments and no rows): the
two week-range endpoints reject a provided start or end week that is not a
strict `YYYY-MM-DD` date — including impossible dates such as 2026-02-30 —
and the drill-down endpoint rejects a request missing `week_start`,
`line_name` or `defect_type`. -/

theorem report_routes_reject_malformed_input :
    (∀ s e dS dE, parseIsoDateUTC s = none →
      weeklySummaryRoute (some s) e dS dE =
        .clientError "start_week and end_week must be YYYY-MM-DD" ∧
      flagCountsRoute (some s) e dS dE =
        .clientError "start_week and end_week must be YYYY-MM-DD") ∧
    (∀ s e dS dE, parseIsoDateUTC e = none →
      weeklySummaryRoute s (some e) dS dE =
        .clientError "start_week and end_week must be YYYY-MM-DD" ∧
      flagCountsRoute s (some e) dS dE =
        .clientError "start_week and end_week must be YYYY-MM-DD") ∧
    parseIsoDateUTC "2026-02-30" = none ∧
    (∀ w l t, w = none ∨ l = none ∨ t = none →
      weeklyDetailsRoute w l t =
        .clientError "week_start, line_name, and defect_type are required") := by
  refine ⟨fun s e dS dE h => ?_, fun s e dS dE h => ?_, by decide, fun w l t h => ?_⟩
  · constructor <;> simp [weeklySummaryRoute, flagCountsRoute, h]
  · constructor <;> simp [weeklySummaryRoute, flagCountsRoute, h]
  · rcases h with h | h | h <;> subst h <;>
      simp [weeklyDetailsRoute, strFalsy]

/-- Witness for C9: the malformed start week 2026-02-30 is rejected by the
weekly-summary endpoint. -/

theorem report_routes_reject_malformed_input_witness :
    weeklySummaryRoute (some "2026-02-30") none "2026-01-05" "2026-02-02" =
      .clientError "start_week and end_week must be YYYY-MM-DD" :=
  (report_routes_reject_malformed_input.1 "2026-02-30" none "2026-01-05"
    "2026-02-02" (by decide)).1

/-! ## C8 — issue-type dimension upsert -/

/-- C8: the issue-type upsert is idempotent by its `(source, normalized
label)` key: a label normalizing to `none` is rejected with no insert; the
first call for an absent key inserts exactly one row (keeping the caller's
spelling as the display label) and returns the fresh key; any call whose
label normalizes to an already-stored key returns that stored row's key
with the state unchanged (display label not altered, no duplicate row);
in particular a second call right after the first, with any spelling of
the same key, returns the first call's key and leaves the state of the
first call untouched. -/

theorem ensureIssueType_idempotent_upsert
    (nl : String → Option String) (db : DB) (src : Source) (n : String) :
    (∀ lbl, nl lbl = none → ensureIssueType nl db src lbl = (none, db)) ∧
    (∀ lbl, nl lbl = some n → n ≠ "" →
      db.issueTypes.find? (fun t => t.source == src && t.issue_label_norm == n) = none →
      ensureIssueType nl db src lbl =
        (some db.nextIssueTypeKey,
          { db with
            issueTypes := db.issueTypes ++ [⟨db.nextIssueTypeKey, src, lbl, n⟩],
            nextIssueTypeKey := db.nextIssueTypeKey + 1 })) ∧
    (∀ lbl t, nl lbl = some n → n ≠ "" →
      db.issueTypes.find? (fun t => t.source == src && t.issue_label_norm == n) = some t →
      ensureIssueType nl db src lbl = (some t.issue_type_key, db)) ∧
    (∀ lbl lbl2, nl lbl = some n → n ≠ "" →
      db.issueTypes.find? (fun t => t.source == src && t.issue_label_norm == n) = none →
      nl lbl2 = some n →
      ensureIssueType nl (ensureIssueType nl db src lbl).2 src lbl2 =
        (some db.nextIssueTypeKey, (ensureIssueType nl db src lbl).2)) := by
  have hreject : ∀ lbl, nl lbl = none → ensureIssueType nl db src lbl = (none, db) := by
    intro lbl h
    simp [ensureIssueType, h]
  have hinsert : ∀ lbl, nl lbl = some n → n ≠ "" →
      db.issueTypes.find? (fun t => t.source == src && t.issue_label_norm == n) = none →
      ensureIssueType nl db src lbl =
        (some db.nextIssueTypeKey,
          { db with
            issueTypes := db.issueTypes ++ [⟨db.nextIssueTypeKey, src, lbl, n⟩],
            nextIssueTypeKey := db.nextIssueTypeKey + 1 }) := by
    intro lbl h hne habsent
    simp [ensureIssueType, h, hne, habsent]
  have hfound : ∀ lbl t, nl lbl = some n → n ≠ "" →
      db.issueTypes.find? (fun t => t.source == src && t.issue_label_norm == n) = some t →
      ensureIssueType nl db src lbl = (some t.issue_type_key, db) := by
    intro lbl t h hne hfind
    simp [ensureIssueType, h, hne, hfind]
  refine ⟨hreject, hinsert, hfound, ?_⟩
  intro lbl lbl2 h hne habsent h2
  rw [hinsert lbl h hne habsent]
  simp only [ensureIssueType, h2, hne, if_neg (by simpa using hne : ¬(n == "") = true)]
  rw [List.find?_append, habsent]
  simp

/-- Witness for C8: concrete first and second upsert of the same
normalized key. -/

theorem ensureIssueType_idempotent_upsert_witness :
    ensureIssueType normId
      (ensureIssueType normId emptyDB .PRODUCTION "Scratch").2 .PRODUCTION "Scratch" =
      (some emptyDB.nextIssueTypeKey,
        (ensureIssueType normId emptyDB .PRODUCTION "Scratch").2) :=
  (ensureIssueType_idempotent_upsert normId emptyDB .PRODUCTION "Scratch").2.2.2
    "Scratch" "Scratch" (by decide) (by decide) (by decide) (by decide)

/-! ## Shared helper lemmas -/

theorem natFalsy_some (n : Nat) (h : n ≠ 0) : natFalsy (some n) = false := by
  simp [natFalsy, h]

theorem strFalsy_some (s : String) (h : s ≠ "") : strFalsy (some s) = false := by
  simp [strFalsy, h]

/-- The fast path of `resolveLotKey`: a truthy pre-resolved key is trusted
and returned with the `lot_id_norm` of the lot row it points at (if any),
with no state change. -/

theorem resolveLotKey_fast (nn : String → Option String) (db : DB) (src : SourceKind)
    (sk k : Nat) (raw : Option String) (hk : k ≠ 0) :
    resolveLotKey nn db src sk (some k) raw =
      (some (k, (findLotByKey db k).map (fun l => l.lot_id_norm)), db) := by
  simp [resolveLotKey, natFalsy_some k hk]

/-! ## C10 — backfilled lot keys are trusted -/

/-- C10: a raw record carrying a truthy backfilled `lot_key` is never
`Unmatched`: resolution returns that key with no re-normalization of the
raw identifier (the result does not depend on the normalization function
or the raw id, and no backfill write happens), even when no `dim_lot` row
has that key — in which case the `lot_id_norm` context is `null`, and any
later flag the production classifier attaches to such a record carries a
`null` normalized lot id and is never `UNMATCHED_LOT_ID`. -/

theorem resolveLotKey_trusts_backfilled_key
    (nn nn' : String → Option String) (db : DB) (src : SourceKind)
    (sk k : Nat) (raw raw' : Option String) (hk : k ≠ 0) :
    resolveLotKey nn db src sk (some k) raw =
      (some (k, (findLotByKey db k).map (fun l => l.lot_id_norm)), db) ∧
    (findLotByKey db k = none →
      resolveLotKey nn db src sk (some k) raw = (some (k, none), db)) ∧
    resolveLotKey nn db src sk (some k) raw =
      resolveLotKey nn' db src sk (some k) raw' ∧
    (∀ nl row f db', row.lot_key = some k →
      classifyProd nl nn db row = .flagRow f db' →
      f.flag_type ≠ .UNMATCHED_LOT_ID ∧
      (findLotByKey db k = none → f.lot_id_norm = none)) := by
  refine ⟨resolveLotKey_fast nn db src sk k raw hk, ?_, ?_, ?_⟩
  · intro hnone
    rw [resolveLotKey_fast nn db src sk k raw hk, hnone]
    rfl
  · rw [resolveLotKey_fast nn db src sk k raw hk,
      resolveLotKey_fast nn' db src sk k raw' hk]
  · intro nl row f db' hrowk hcls
    unfold classifyProd at hcls
    rw [hrowk, resolveLotKey_fast nn db .PRODUCTION_LOG row.production_log_key
      k row.lot_id_raw hk] at hcls
    dsimp only at hcls
    split at hcls
    · cases hcls; exact ⟨by simp, fun _ => rfl⟩
    · split at hcls
      · cases hcls
        exact ⟨by simp, fun hnone => by simp [hnone]⟩
      · split at hcls
        · cases hcls
          exact ⟨by simp, fun hnone => by simp [hnone]⟩
        · split at hcls
          · cases hcls
            exact ⟨by simp, fun hnone => by simp [hnone]⟩
          · split at hcls
            · cases hcls
            · split at hcls
              · cases hcls
                exact ⟨by simp, fun hnone => by simp [hnone]⟩
              · cases hcls

/-- Witness for C10: a backfilled key pointing at no lot row still
resolves to that key with `null` norm. -/

theorem resolveLotKey_trusts_backfilled_key_witness :
    resolveLotKey normId emptyDB .PRODUCTION_LOG 1 (some 9) (some "LOT-9") =
      (some (9, none), emptyDB) :=
  (resolveLotKey_trusts_backfilled_key normId normId emptyDB .PRODUCTION_LOG 1 9
    (some "LOT-9") (some "LOT-9") (by decide)).2.1 (by decide)

/-- Backfilling a lot key touches only the raw-log tables. -/

theorem backfillLotKey_frame (db : DB) (src : SourceKind) (sk rk : Nat) :
    (backfillLotKey db src sk rk).lots = db.lots ∧
    (backfillLotKey db src sk rk).issueTypes = db.issueTypes ∧
    (backfillLotKey db src sk rk).nextIssueTypeKey = db.nextIssueTypeKey ∧
    (backfillLotKey db src sk rk).assignments = db.assignments ∧
    (backfillLotKey db src sk rk).events = db.events ∧
    (backfillLotKey db src sk rk).flags = db.flags := by
  cases src <;> simp [backfillLotKey]

/-- The `resolveLotKey` touches only the raw-log tables (its only write is the
lot-key backfill). -/

theorem resolveLotKey_frame (nn : String → Option String) (db : DB)
    (src : SourceKind) (sk : Nat) (lk : Option Nat) (raw : Option String) :
    ((resolveLotKey nn db src sk lk raw).2).lots = db.lots ∧
    ((resolveLotKey nn db src sk lk raw).2).issueTypes = db.issueTypes ∧
    ((resolveLotKey nn db src sk lk raw).2).nextIssueTypeKey = db.nextIssueTypeKey ∧
    ((resolveLotKey nn db src sk lk raw).2).assignments = db.assignments ∧
    ((resolveLotKey nn db src sk lk raw).2).events = db.events ∧
    ((resolveLotKey nn db src sk lk raw).2).flags = db.flags := by
  unfold resolveLotKey
  split
  · simp
  · split
    · simp
    · split
      · simp
      · split
        · simp
        · split
          · simp
          · exact backfillLotKey_frame db src sk _

/-- The `ensureIssueType` touches only the issue-type dimension. -/

theorem ensureIssueType_frame (nl : String → Option String) (db : DB)
    (src : Source) (lbl : String) :
    ((ensureIssueType nl db src lbl).2).lots = db.lots ∧
    ((ensureIssueType nl db src lbl).2).assignments = db.assignments ∧
    ((ensureIssueType nl db src lbl).2).prodLogs = db.prodLogs ∧
    ((ensureIssueType nl db src lbl).2).shipLogs = db.shipLogs ∧
    ((ensureIssueType nl db src lbl).2).events = db.events ∧
    ((ensureIssueType nl db src lbl).2).flags = db.flags := by
  unfold ensureIssueType
  split
  · simp
  · split
    · simp
    · split
      · simp
      · simp

/-- The `ensureIssueType` succeeds whenever the label normalizes to non-empty
text. -/

theorem ensureIssueType_isSome (nl : String → Option String) (db : DB)
    (src : Source) (lbl n : String) (h : nl lbl = some n) (hne : n ≠ "") :
    ((ensureIssueType nl db src lbl).1).isSome := by
  unfold ensureIssueType
  rw [h]
  dsimp only
  rw [if_neg (by simpa using hne : ¬(n == "") = true)]
  split <;> simp

/-- The `findLotAssignment` reads only the assignment table. -/

theorem findLotAssignment_congr (db db' : DB) (k : Nat)
    (h : db'.assignments = db.assignments) :
    findLotAssignment db' k = findLotAssignment db k := by
  simp [findLotAssignment, h]

/-! ## C4 — first-writer-wins line assignment -/

/-- C4: the line-assignment step is first-writer-wins.  For a production
record with valid fields whose lot resolves to `L` and that claims line
`A`: with no existing assignment for `L`, processing inserts `(L, A)` and
accepts the record (no flag); with an existing assignment equal to `A` it
accepts with no write and no additional ledger row; with an existing
assignment to a different line it flags `CONFLICT` with no write — so the
assignment permanently remains the first line written, and a later record
claiming that original line is again accepted (second conjunct). -/

theorem stepProd_first_writer_wins
    (nl nn : String → Option String) (db : DB) (p fl : Nat) (row : ProdRow)
    (rd : String) (pd : Nat × Nat × Nat) (A L : Nat) (lbl nrm : String)
    (hrd : row.run_date = some rd) (hrdne : rd ≠ "")
    (hpd : parseIsoDateUTC rd = some pd)
    (hpl : row.production_line_key = some A) (hA : A ≠ 0)
    (hlk : row.lot_key = some L) (hL : L ≠ 0)
    (hpi : row.primary_issue = some lbl) (hlblne : lbl ≠ "")
    (hnl : nl lbl = some nrm) (hnrmne : nrm ≠ "") :
    (findLotAssignment db L = none →
      ∃ db', stepProd nl nn ⟨db, p, fl⟩ row = ⟨db', p + 1, fl⟩ ∧
        db'.assignments = db.assignments ++ [⟨L, A⟩] ∧ db'.flags = db.flags) ∧
    (findLotAssignment db L = some A →
      ∃ db', stepProd nl nn ⟨db, p, fl⟩ row = ⟨db', p + 1, fl⟩ ∧
        db'.assignments = db.assignments ∧ db'.flags = db.flags) ∧
    (∀ A0, findLotAssignment db L = some A0 → A0 ≠ 0 → A0 ≠ A →
      ∃ db' f, stepProd nl nn ⟨db, p, fl⟩ row = ⟨db', p, fl + 1⟩ ∧
        db'.assignments = db.assignments ∧
        db'.flags = db.flags ++ [f] ∧ f.flag_type = .CONFLICT ∧
        db'.events = db.events) := by
  obtain ⟨itk, hitk⟩ := Option.isSome_iff_exists.mp
    (ensureIssueType_isSome nl db .PRODUCTION lbl nrm hnl hnrmne)
  have hframe := ensureIssueType_frame nl db .PRODUCTION lbl
  rcases hens : ensureIssueType nl db .PRODUCTION lbl with ⟨ok, db2⟩
  rw [hens] at hitk hframe
  dsimp only at hitk hframe
  subst hitk
  have hass2 : db2.assignments = db.assignments := hframe.2.1
  have hfl2 : db2.flags = db.flags := hframe.2.2.2.2.2
  have hev2 : db2.events = db.events := hframe.2.2.2.2.1
  refine ⟨fun hno => ?_, fun hsame => ?_, fun A0 hA0 hA00 hA0A => ?_⟩
  · unfold stepProd classifyProd
    rw [hrd, hpl, hlk, hpi]
    simp only [strFalsy_some rd hrdne, natFalsy_some A hA, Bool.or_false,
      Bool.false_or, Bool.false_eq_true, if_false]
    rw [resolveLotKey_fast nn db .PRODUCTION_LOG row.production_log_key L
      row.lot_id_raw hL]
    dsimp only
    simp only [strFalsy_some lbl hlblne, Bool.false_eq_true, if_false,
      Option.getD_some]
    rw [hens]
    dsimp only
    rw [findLotAssignment_congr db db2 L hass2, hno]
    simp only [natFalsy, Bool.not_true, Bool.false_and, Bool.false_eq_true,
      if_false, if_true]
    rcases hlif : row.line_issue_flag with _ | b
    · simp only [deriveProductionQty]
      rw [if_neg (by omega), hpd]
      dsimp only
      refine ⟨_, rfl, ?_, ?_⟩
      · simp [insertIssueEvent, insertLotAssignment, hass2]
      · simp [insertIssueEvent, insertLotAssignment, hfl2]
    · cases b
      · simp only [deriveProductionQty]
        rw [if_pos (le_refl 0)]
        dsimp only
        refine ⟨_, rfl, ?_, ?_⟩
        · simp [insertLotAssignment, hass2]
        · simp [insertLotAssignment, hfl2]
      · simp only [deriveProductionQty]
        rw [if_neg (by omega), hpd]
        dsimp only
        refine ⟨_, rfl, ?_, ?_⟩
        · simp [insertIssueEvent, insertLotAssignment, hass2]
        · simp [insertIssueEvent, insertLotAssignment, hfl2]
  · unfold stepProd classifyProd
    rw [hrd, hpl, hlk, hpi]
    simp only [strFalsy_some rd hrdne, natFalsy_some A hA, Bool.or_false,
      Bool.false_or, Bool.false_eq_true, if_false]
    rw [resolveLotKey_fast nn db .PRODUCTION_LOG row.production_log_key L
      row.lot_id_raw hL]
    dsimp only
    simp only [strFalsy_some lbl hlblne, Bool.false_eq_true, if_false,
      Option.getD_some]
    rw [hens]
    dsimp only
    rw [findLotAssignment_congr db db2 L hass2, hsame]
    simp only [natFalsy_some A hA, Bool.not_false, Option.getD_some, bne_self_eq_false,
      Bool.and_false, Bool.false_eq_true, if_false]
    rcases hlif : row.line_issue_flag with _ | b
    · simp only [deriveProductionQty]
      rw [if_neg (by omega), hpd]
      dsimp only
      refine ⟨_, rfl, ?_, ?_⟩
      · simp [insertIssueEvent, hass2]
      · simp [insertIssueEvent, hfl2]
    · cases b
      · simp only [deriveProductionQty]
        rw [if_pos (le_refl 0)]
        dsimp only
        exact ⟨_, rfl, hass2, hfl2⟩
      · simp only [deriveProductionQty]
        rw [if_neg (by omega), hpd]
        dsimp only
        refine ⟨_, rfl, ?_, ?_⟩
        · simp [insertIssueEvent, hass2]
        · simp [insertIssueEvent, hfl2]
  · unfold stepProd classifyProd
    rw [hrd, hpl, hlk, hpi]
    simp only [strFalsy_some rd hrdne, natFalsy_some A hA, Bool.or_false,
      Bool.false_or, Bool.false_eq_true, if_false]
    rw [resolveLotKey_fast nn db .PRODUCTION_LOG row.production_log_key L
      row.lot_id_raw hL]
    dsimp only
    simp only [strFalsy_some lbl hlblne, Bool.false_eq_true, if_false,
      Option.getD_some]
    rw [hens]
    dsimp only
    rw [findLotAssignment_congr db db2 L hass2, hA0]
    rw [if_pos (by simp [natFalsy_some A0 hA00, bne_iff_ne, hA0A])]
    dsimp only
    refine ⟨_, ⟨.CONFLICT, .PRODUCTION_LOG, "Lot ID mapped to multiple production lines",
      none, row.lot_id_raw, (findLotByKey db L).map (fun l => l.lot_id_norm),
      some row.production_log_key, none⟩, rfl, ?_, ?_, rfl, ?_⟩
    · simp [insertFlag, hass2]
    · simp [insertFlag, hfl2]
    · simp [insertFlag, hev2]

/-- Witness for C4: fresh assignment, idempotent re-acceptance on the
original line, and conflict on a different line, on concrete states. -/

theorem stepProd_first_writer_wins_witness :
    (∃ db', stepProd normId normId ⟨dbLotOnly, 0, 0⟩ prodRowLineA = ⟨db', 1, 0⟩ ∧
      db'.assignments = dbLotOnly.assignments ++ [⟨1, 1⟩] ∧
      db'.flags = dbLotOnly.flags) ∧
    (∃ db', stepProd normId normId ⟨dbLotAssigned, 0, 0⟩ prodRowLineA = ⟨db', 1, 0⟩ ∧
      db'.assignments = dbLotAssigned.assignments ∧
      db'.flags = dbLotAssigned.flags) ∧
    (∃ db' f, stepProd normId normId ⟨dbLotAssigned, 0, 0⟩ prodRowLineB = ⟨db', 0, 1⟩ ∧
      db'.assignments = dbLotAssigned.assignments ∧
      db'.flags = dbLotAssigned.flags ++ [f] ∧ f.flag_type = .CONFLICT ∧
      db'.events = dbLotAssigned.events) := by
  refine ⟨?_, ?_, ?_⟩
  · exact (stepProd_first_writer_wins normId normId dbLotOnly 0 0 prodRowLineA
      "2026-02-02" (2026, 2, 2) 1 1 "Scratch" "Scratch" rfl (by decide) (by decide)
      rfl (by decide) rfl (by decide) rfl (by decide) (by decide) (by decide)).1
      (by decide)
  · exact (stepProd_first_writer_wins normId normId dbLotAssigned 0 0 prodRowLineA
      "2026-02-02" (2026, 2, 2) 1 1 "Scratch" "Scratch" rfl (by decide) (by decide)
      rfl (by decide) rfl (by decide) rfl (by decide) (by decide) (by decide)).2.1
      (by decide)
  · exact (stepProd_first_writer_wins normId normId dbLotAssigned 0 0 prodRowLineB
      "2026-02-03" (2026, 2, 3) 2 1 "Scratch" "Scratch" rfl (by decide) (by decide)
      rfl (by decide) rfl (by decide) rfl (by decide) (by decide) (by decide)).2.2
      1 (by decide) (by decide) (by decide)

/-! ## C6 — shipping line inference -/

/-- C6: for a shipping record with a ship date whose lot resolves
successfully, a lot with no line-assignment ledger entry yields an
`INCOMPLETE_DATA` flag (so in particular neither `UNMATCHED_LOT_ID` nor
`CONFLICT`); and when the ledger has an entry and every remaining check
passes, the projected issue event carries `source = SHIPPING`, the line
read from the ledger (shipping rows carry no claimed line at all), and
quantity exactly 1. -/

theorem classifyShip_infers_line_from_ledger
    (nl nn : String → Option String) (db db1 : DB) (p fl : Nat) (row : ShipRow)
    (sd : String) (L : Nat) (nrm : Option String)
    (hsd : row.ship_date = some sd) (hsdne : sd ≠ "")
    (hres : resolveLotKey nn db .SHIPPING_LOG row.shipping_log_key
      row.lot_key row.lot_id_raw = (some (L, nrm), db1)) :
    (findLotAssignment db1 L = none →
      ∃ db' f, stepShip nl nn ⟨db, p, fl⟩ row = ⟨db', p, fl + 1⟩ ∧
        db'.flags = db1.flags ++ [f] ∧ f.flag_type = .INCOMPLETE_DATA ∧
        db'.events = db1.events) ∧
    (∀ lineK hr nrm2 pd, findLotAssignment db1 L = some lineK → lineK ≠ 0 →
      row.hold_reason = some hr → hr ≠ "" → nl hr = some nrm2 → nrm2 ≠ "" →
      parseIsoDateUTC sd = some pd →
      ∃ db' e, stepShip nl nn ⟨db, p, fl⟩ row = ⟨db', p + 1, fl⟩ ∧
        db'.events = db1.events ++ [e] ∧
        e.event_source = .SHIPPING ∧ e.production_line_key = lineK ∧
        e.qty_impacted = 1 ∧ e.shipping_log_key = some row.shipping_log_key ∧
        db'.flags = db1.flags) := by
  refine ⟨fun hno => ?_, fun lineK hr nrm2 pd hsome hK hhr hhrne hnl2 hnrm2 hpd => ?_⟩
  · unfold stepShip classifyShip
    rw [hsd]
    simp only [strFalsy_some sd hsdne, Bool.false_eq_true, if_false]
    rw [hres]
    dsimp only
    rw [hno]
    simp only [natFalsy, if_true]
    exact ⟨_, _, rfl, rfl, rfl, rfl⟩
  · obtain ⟨y, m, dd⟩ := pd
    obtain ⟨itk, hitk⟩ := Option.isSome_iff_exists.mp
      (ensureIssueType_isSome nl db1 .SHIPPING hr nrm2 hnl2 hnrm2)
    have hframe := ensureIssueType_frame nl db1 .SHIPPING hr
    rcases hens : ensureIssueType nl db1 .SHIPPING hr with ⟨ok, db2⟩
    rw [hens] at hitk hframe
    dsimp only at hitk hframe
    subst hitk
    unfold stepShip classifyShip
    rw [hsd]
    simp only [strFalsy_some sd hsdne, Bool.false_eq_true, if_false]
    rw [hres]
    dsimp only
    rw [hsome]
    simp only [natFalsy_some lineK hK, Bool.false_eq_true, if_false]
    rw [hhr]
    simp only [strFalsy_some hr hhrne, Bool.false_eq_true, if_false,
      Option.getD_some]
    rw [hens]
    dsimp only [deriveShippingQty]
    rw [if_neg (by omega), hpd]
    dsimp only
    refine ⟨_, ⟨.SHIPPING, sd, getWeekStartUTC (epochDay y m dd), lineK, L, itk, 1,
      none, some row.shipping_log_key⟩, rfl, ?_, rfl, rfl, rfl, rfl, ?_⟩
    · simp [insertIssueEvent, hframe.2.2.2.2.1]
    · simp [insertIssueEvent, hframe.2.2.2.2.2]

/-- Witness for C6: concrete unassigned-lot flag and concrete inferred-line
projection. -/

theorem classifyShip_infers_line_from_ledger_witness :
    (∃ db' f, stepShip normId normId ⟨dbShipNoAssign, 0, 0⟩ shipRowHold = ⟨db', 0, 1⟩ ∧
      db'.flags = dbShipNoAssign.flags ++ [f] ∧ f.flag_type = .INCOMPLETE_DATA ∧
      db'.events = dbShipNoAssign.events) ∧
    (∃ db' e, stepShip normId normId ⟨dbShipAssigned, 0, 0⟩ shipRowHold = ⟨db', 1, 0⟩ ∧
      db'.events = dbShipAssigned.events ++ [e] ∧
      e.event_source = .SHIPPING ∧ e.production_line_key = 7 ∧
      e.qty_impacted = 1 ∧ e.shipping_log_key = some shipRowHold.shipping_log_key ∧
      db'.flags = dbShipAssigned.flags) := by
  refine ⟨?_, ?_⟩
  · exact (classifyShip_infers_line_from_ledger normId normId dbShipNoAssign
      dbShipNoAssign 0 0 shipRowHold "2026-02-03" 1 (some "lot100") rfl
      (by decide) (by decide)).1 (by decide)
  · exact (classifyShip_infers_line_from_ledger normId normId dbShipAssigned
      dbShipAssigned 0 0 shipRowHold "2026-02-03" 1 (some "lot100") rfl
      (by decide) (by decide)).2 7 "Late" "Late" (2026, 2, 3) (by decide)
      (by decide) rfl (by decide) (by decide) (by decide) (by decide)

/-! ## C3 — zero-quantity production records -/

/-- C3 (amended): a production record that passes every classification
check but whose computed defect quantity is 0 (`line_issue_flag`
explicitly false) is counted as `processed`, but no issue event — and no
flag — is persisted for it: the loop skips it before date validation and
projection, leaving it with no outcome row at all. -/

theorem stepProd_zero_qty_skipped
    (nl nn : String → Option String) (db : DB) (p fl : Nat) (row : ProdRow)
    (rd : String) (A L : Nat) (lbl nrm : String)
    (hrd : row.run_date = some rd) (hrdne : rd ≠ "")
    (hpl : row.production_line_key = some A) (hA : A ≠ 0)
    (hlk : row.lot_key = some L) (hL : L ≠ 0)
    (hpi : row.primary_issue = some lbl) (hlblne : lbl ≠ "")
    (hnl : nl lbl = some nrm) (hnrmne : nrm ≠ "")
    (hlif : row.line_issue_flag = some false)
    (hnc : natFalsy (findLotAssignment db L) = true ∨ findLotAssignment db L = some A) :
    ∃ db', stepProd nl nn ⟨db, p, fl⟩ row = ⟨db', p + 1, fl⟩ ∧
      db'.events = db.events ∧ db'.flags = db.flags := by
  obtain ⟨itk, hitk⟩ := Option.isSome_iff_exists.mp
    (ensureIssueType_isSome nl db .PRODUCTION lbl nrm hnl hnrmne)
  have hframe := ensureIssueType_frame nl db .PRODUCTION lbl
  rcases hens : ensureIssueType nl db .PRODUCTION lbl with ⟨ok, db2⟩
  rw [hens] at hitk hframe
  dsimp only at hitk hframe
  subst hitk
  have hass2 : db2.assignments = db.assignments := hframe.2.1
  have hfl2 : db2.flags = db.flags := hframe.2.2.2.2.2
  have hev2 : db2.events = db.events := hframe.2.2.2.2.1
  unfold stepProd classifyProd
  rw [hrd, hpl, hlk, hpi]
  simp only [strFalsy_some rd hrdne, natFalsy_some A hA, Bool.or_false,
    Bool.false_or, Bool.false_eq_true, if_false]
  rw [resolveLotKey_fast nn db .PRODUCTION_LOG row.production_log_key L
    row.lot_id_raw hL]
  dsimp only
  simp only [strFalsy_some lbl hlblne, Bool.false_eq_true, if_false,
    Option.getD_some]
  rw [hens]
  dsimp only
  rw [findLotAssignment_congr db db2 L hass2]
  rcases hnc with hfalsy | hsame
  · rw [hfalsy]
    simp only [Bool.not_true, Bool.false_and, Bool.false_eq_true, if_false,
      if_true, hlif, deriveProductionQty]
    rw [if_pos (le_refl 0)]
    dsimp only
    refine ⟨_, rfl, ?_, ?_⟩
    · simp [insertLotAssignment, hev2]
    · simp [insertLotAssignment, hfl2]
  · rw [hsame]
    simp only [natFalsy_some A hA, Bool.not_false, Option.getD_some,
      bne_self_eq_false, Bool.and_false, Bool.false_eq_true, if_false, hlif,
      deriveProductionQty]
    rw [if_pos (le_refl 0)]
    dsimp only
    exact ⟨_, rfl, hev2, hfl2⟩

/-- Counterexample to C3 as stated: after a committed batch containing a
record that passed all checks with computed quantity 0, the event table is
empty — no `IssueEvent` with `quantityImpacted = 0` was projected or
persisted (the record was still counted `processed` and not flagged). -/

theorem stepProd_zero_qty_counterexample :
    (processProductionLogs normId normId dbZeroQty 500).1.events = [] ∧
    (processProductionLogs normId normId dbZeroQty 500).1.flags = [] ∧
    (processProductionLogs normId normId dbZeroQty 500).2 = (1, 0) := by
  decide

/-- Witness for C3 (amended): the zero-quantity skip on a concrete state. -/

theorem stepProd_zero_qty_skipped_witness :
    ∃ db', stepProd normId normId ⟨dbZeroQty, 0, 0⟩ prodRowZeroQty = ⟨db', 1, 0⟩ ∧
      db'.events = dbZeroQty.events ∧ db'.flags = dbZeroQty.flags :=
  stepProd_zero_qty_skipped normId normId dbZeroQty 0 0 prodRowZeroQty
    "2026-02-06" 1 1 "Dent" "Dent" rfl (by decide) rfl (by decide) rfl
    (by decide) rfl (by decide) (by decide) (by decide) (by decide)
    (Or.inl (by decide))

/-! ## C7 — result accounting -/

/-- Every loop iteration of the production pass bumps exactly one of the
two counters. -/

theorem stepProd_total (nl nn : String → Option String) (acc : RunTotals)
    (row : ProdRow) :
    (stepProd nl nn acc row).processed + (stepProd nl nn acc row).flagged =
      acc.processed + acc.flagged + 1 := by
  rcases h : classifyProd nl nn acc.db row with ⟨f, db⟩ | db | ⟨e, db⟩ <;>
    simp [stepProd, h] <;> omega

/-- Every loop iteration of the shipping pass bumps exactly one of the two
counters. -/

theorem stepShip_total (nl nn : String → Option String) (acc : RunTotals)
    (row : ShipRow) :
    (stepShip nl nn acc row).processed + (stepShip nl nn acc row).flagged =
      acc.processed + acc.flagged + 1 := by
  rcases h : classifyShip nl nn acc.db row with ⟨f, db⟩ | db | ⟨e, db⟩ <;>
    simp [stepShip, h] <;> omega

/-- Folding the production loop over a batch adds the batch length to the
combined counters. -/

theorem foldl_stepProd_total (nl nn : String → Option String)
    (rows : List ProdRow) (acc : RunTotals) :
    (rows.foldl (stepProd nl nn) acc).processed +
      (rows.foldl (stepProd nl nn) acc).flagged =
      acc.processed + acc.flagged + rows.length := by
  induction rows generalizing acc with
  | nil => simp
  | cons r rs ih =>
    rw [List.foldl_cons, List.length_cons, ih (stepProd nl nn acc r),
      stepProd_total]
    omega

/-- Folding the shipping loop over a batch adds the batch length to the
combined counters. -/

theorem foldl_stepShip_total (nl nn : String → Option String)
    (rows : List ShipRow) (acc : RunTotals) :
    (rows.foldl (stepShip nl nn) acc).processed +
      (rows.foldl (stepShip nl nn) acc).flagged =
      acc.processed + acc.flagged + rows.length := by
  induction rows generalizing acc with
  | nil => simp
  | cons r rs ih =>
    rw [List.foldl_cons, List.length_cons, ih (stepShip nl nn acc r),
      stepShip_total]
    omega

/-- C7 (amended): per source pass, `processed` and `flagged` are disjoint
counts — `processed` counts accepted records (with or without a persisted
event) and `flagged` counts rejected ones — and every selected record is
counted in exactly one of the two, so `processed + flagged` equals the
number of records in the batch (not `processed = all outcomes` as the
claim states). -/

theorem processed_flagged_account (nl nn : String → Option String)
    (db : DB) (n : Nat) :
    (processProductionLogs nl nn db n).2.1 +
      (processProductionLogs nl nn db n).2.2 = (selectProdBatch db n).length ∧
    (processShippingLogs nl nn db n).2.1 +
      (processShippingLogs nl nn db n).2.2 = (selectShipBatch db n).length := by
  constructor
  · have h := foldl_stepProd_total nl nn (selectProdBatch db n) ⟨db, 0, 0⟩
    simpa [processProductionLogs] using h
  · have h := foldl_stepShip_total nl nn (selectShipBatch db n) ⟨db, 0, 0⟩
    simpa [processShippingLogs] using h

/-- Counterexample to C7 as stated: a batch whose single record receives
an outcome (a flag) returns `processed = 0`, `flagged = 1` — `processed`
does not count flagged records, and `flagged ≤ processed` fails. -/

theorem processed_flagged_account_counterexample :
    (processProductionLogs normId normId dbNoIssue 500).2 = (0, 1) ∧
    ¬ ((processProductionLogs normId normId dbNoIssue 500).2.2 ≤
        (processProductionLogs normId normId dbNoIssue 500).2.1) := by
  decide

theorem classifyProd_frame (nl nn : String → Option String) (db : DB) (row : ProdRow) :
    (outcomeDB (classifyProd nl nn db row)).events = db.events ∧
    (outcomeDB (classifyProd nl nn db row)).flags = db.flags := by
  have hfr := resolveLotKey_frame nn db .PRODUCTION_LOG row.production_log_key
    row.lot_key row.lot_id_raw
  unfold classifyProd
  split
  · exact ⟨rfl, rfl⟩
  · split
    · rename_i d1 heq
      rw [heq] at hfr
      exact ⟨hfr.2.2.2.2.1, hfr.2.2.2.2.2⟩
    · rename_i lotK lotN d1 heq
      rw [heq] at hfr
      split
      · exact ⟨hfr.2.2.2.2.1, hfr.2.2.2.2.2⟩
      · have hfe := ensureIssueType_frame nl d1 .PRODUCTION (row.primary_issue.getD "")
        split
        · rename_i d2 heq2
          rw [heq2] at hfe
          exact ⟨hfe.2.2.2.2.1.trans hfr.2.2.2.2.1, hfe.2.2.2.2.2.trans hfr.2.2.2.2.2⟩
        · rename_i itk d2 heq2
          rw [heq2] at hfe
          have hev2 : d2.events = db.events := hfe.2.2.2.2.1.trans hfr.2.2.2.2.1
          have hfl2 : d2.flags = db.flags := hfe.2.2.2.2.2.trans hfr.2.2.2.2.2
          dsimp only
          split
          · exact ⟨hev2, hfl2⟩
          · have hd3e : (if natFalsy (findLotAssignment d2 lotK) = true then
                insertLotAssignment d2 lotK (row.production_line_key.getD 0) else d2).events
                = db.events := by
              split <;> simpa [insertLotAssignment]
            have hd3f : (if natFalsy (findLotAssignment d2 lotK) = true then
                insertLotAssignment d2 lotK (row.production_line_key.getD 0) else d2).flags
                = db.flags := by
              split <;> simpa [insertLotAssignment]
            split
            · exact ⟨hd3e, hd3f⟩
            · split
              · exact ⟨hd3e, hd3f⟩
              · exact ⟨hd3e, hd3f⟩

theorem classifyProd_refs (nl nn : String → Option String) (db : DB) (row : ProdRow) :
    (∀ f db', classifyProd nl nn db row = .flagRow f db' →
      f.production_log_key = some row.production_log_key ∧ f.shipping_log_key = none) ∧
    (∀ e db', classifyProd nl nn db row = .acceptEvent e db' →
      e.production_log_key = some row.production_log_key ∧ e.shipping_log_key = none) := by
  constructor <;> intro x db' h <;> unfold classifyProd at h <;> split at h
  case _ => cases h; exact ⟨rfl, rfl⟩
  case _ =>
    split at h
    · cases h; exact ⟨rfl, rfl⟩
    · split at h
      · cases h; exact ⟨rfl, rfl⟩
      · split at h
        · cases h; exact ⟨rfl, rfl⟩
        · dsimp only at h
          split at h
          · cases h; exact ⟨rfl, rfl⟩
          · split at h
            · cases h
            · split at h
              · cases h; exact ⟨rfl, rfl⟩
              · cases h
  case _ => cases h
  case _ =>
    split at h
    · cases h
    · split at h
      · cases h
      · split at h
        · cases h
        · dsimp only at h
          split at h
          · cases h
          · split at h
            · cases h
            · split at h
              · cases h
              · cases h; exact ⟨rfl, rfl⟩

theorem classifyShip_frame (nl nn : String → Option String) (db : DB) (row : ShipRow) :
    (outcomeDB (classifyShip nl nn db row)).events = db.events ∧
    (outcomeDB (classifyShip nl nn db row)).flags = db.flags := by
  have hfr := resolveLotKey_frame nn db .SHIPPING_LOG row.shipping_log_key
    row.lot_key row.lot_id_raw
  unfold classifyShip
  split
  · exact ⟨rfl, rfl⟩
  · split
    · rename_i d1 heq
      rw [heq] at hfr
      exact ⟨hfr.2.2.2.2.1, hfr.2.2.2.2.2⟩
    · rename_i lotK lotN d1 heq
      rw [heq] at hfr
      dsimp only
      split
      · exact ⟨hfr.2.2.2.2.1, hfr.2.2.2.2.2⟩
      · split
        · exact ⟨hfr.2.2.2.2.1, hfr.2.2.2.2.2⟩
        · have hfe := ensureIssueType_frame nl d1 .SHIPPING (row.hold_reason.getD "")
          split
          · rename_i d2 heq2
            rw [heq2] at hfe
            exact ⟨hfe.2.2.2.2.1.trans hfr.2.2.2.2.1,
              hfe.2.2.2.2.2.trans hfr.2.2.2.2.2⟩
          · rename_i itk d2 heq2
            rw [heq2] at hfe
            have hev2 : d2.events = db.events := hfe.2.2.2.2.1.trans hfr.2.2.2.2.1
            have hfl2 : d2.flags = db.flags := hfe.2.2.2.2.2.trans hfr.2.2.2.2.2
            split
            · exact ⟨hev2, hfl2⟩
            · split
              · exact ⟨hev2, hfl2⟩
              · exact ⟨hev2, hfl2⟩

theorem classifyShip_refs (nl nn : String → Option String) (db : DB) (row : ShipRow) :
    (∀ f db', classifyShip nl nn db row = .flagRow f db' →
      f.shipping_log_key = some row.shipping_log_key ∧ f.production_log_key = none) ∧
    (∀ e db', classifyShip nl nn db row = .acceptEvent e db' →
      e.shipping_log_key = some row.shipping_log_key ∧ e.production_log_key = none) := by
  constructor <;> intro x db' h <;> unfold classifyShip at h <;> split at h
  case _ => cases h; exact ⟨rfl, rfl⟩
  case _ =>
    split at h
    · cases h; exact ⟨rfl, rfl⟩
    · dsimp only at h
      split at h
      · cases h; exact ⟨rfl, rfl⟩
      · split at h
        · cases h; exact ⟨rfl, rfl⟩
        · split at h
          · cases h; exact ⟨rfl, rfl⟩
          · split at h
            · cases h
            · split at h
              · cases h; exact ⟨rfl, rfl⟩
              · cases h
  case _ => cases h
  case _ =>
    split at h
    · cases h
    · dsimp only at h
      split at h
      · cases h
      · split at h
        · cases h
        · split at h
          · cases h
          · split at h
            · cases h
            · split at h
              · cases h
              · cases h; exact ⟨rfl, rfl⟩

theorem stepProd_count (nl nn : String → Option String) (acc : RunTotals)
    (row : ProdRow) (k : Nat) :
    (row.production_log_key ≠ k →
      prodEventCount (stepProd nl nn acc row).db k = prodEventCount acc.db k ∧
      prodFlagCount (stepProd nl nn acc row).db k = prodFlagCount acc.db k) ∧
    prodEventCount (stepProd nl nn acc row).db k +
        prodFlagCount (stepProd nl nn acc row).db k ≤
      prodEventCount acc.db k + prodFlagCount acc.db k + 1 ∧
    prodEventCount acc.db k ≤ prodEventCount (stepProd nl nn acc row).db k := by
  have hfr := classifyProd_frame nl nn acc.db row
  rcases h : classifyProd nl nn acc.db row with ⟨f, d⟩ | d | ⟨e, d⟩ <;>
    rw [h] at hfr <;> simp only [outcomeDB] at hfr
  · have href := ((classifyProd_refs nl nn acc.db row).1 f d h).1
    simp only [stepProd, h]
    have hev : prodEventCount (insertFlag d f) k = prodEventCount acc.db k := by
      simp [prodEventCount, insertFlag, hfr.1]
    have hflg : prodFlagCount (insertFlag d f) k =
        prodFlagCount acc.db k + (if row.production_log_key = k then 1 else 0) := by
      simp only [prodFlagCount, insertFlag, List.countP_append, hfr.2, href,
        List.countP_cons, List.countP_nil]
      by_cases hk : row.production_log_key = k
      · simp [hk]
      · simp [hk]
    refine ⟨fun hk => ⟨hev, ?_⟩, ?_, ?_⟩
    · rw [hflg, if_neg hk]; omega
    · rw [hev, hflg]
      split <;> omega
    · rw [hev]
  · simp only [stepProd, h]
    exact ⟨fun _ => ⟨by simp [prodEventCount, hfr.1],
      by simp [prodFlagCount, hfr.2]⟩,
      by simp [prodEventCount, prodFlagCount, hfr.1, hfr.2],
      by simp [prodEventCount, hfr.1]⟩
  · have href := ((classifyProd_refs nl nn acc.db row).2 e d h).1
    simp only [stepProd, h]
    have hflg : prodFlagCount (insertIssueEvent d e) k = prodFlagCount acc.db k := by
      simp [prodFlagCount, insertIssueEvent, hfr.2]
    have hev : prodEventCount (insertIssueEvent d e) k =
        prodEventCount acc.db k + (if row.production_log_key = k then 1 else 0) := by
      simp only [prodEventCount, insertIssueEvent, List.countP_append, hfr.1, href,
        List.countP_cons, List.countP_nil]
      by_cases hk : row.production_log_key = k
      · simp [hk]
      · simp [hk]
    refine ⟨fun hk => ⟨?_, hflg⟩, ?_, ?_⟩
    · rw [hev, if_neg hk]; omega
    · rw [hev, hflg]
      split <;> omega
    · rw [hev]
      split <;> omega

theorem stepShip_count (nl nn : String → Option String) (acc : RunTotals)
    (row : ShipRow) (k : Nat) :
    (row.shipping_log_key ≠ k →
      shipEventCount (stepShip nl nn acc row).db k = shipEventCount acc.db k ∧
      shipFlagCount (stepShip nl nn acc row).db k = shipFlagCount acc.db k) ∧
    shipEventCount (stepShip nl nn acc row).db k +
        shipFlagCount (stepShip nl nn acc row).db k ≤
      shipEventCount acc.db k + shipFlagCount acc.db k + 1 ∧
    shipEventCount acc.db k ≤ shipEventCount (stepShip nl nn acc row).db k := by
  have hfr := classifyShip_frame nl nn acc.db row
  rcases h : classifyShip nl nn acc.db row with ⟨f, d⟩ | d | ⟨e, d⟩ <;>
    rw [h] at hfr <;> simp only [outcomeDB] at hfr
  · have href := ((classifyShip_refs nl nn acc.db row).1 f d h).1
    simp only [stepShip, h]
    have hev : shipEventCount (insertFlag d f) k = shipEventCount acc.db k := by
      simp [shipEventCount, insertFlag, hfr.1]
    have hflg : shipFlagCount (insertFlag d f) k =
        shipFlagCount acc.db k + (if row.shipping_log_key = k then 1 else 0) := by
      simp only [shipFlagCount, insertFlag, List.countP_append, hfr.2, href,
        List.countP_cons, List.countP_nil]
      by_cases hk : row.shipping_log_key = k
      · simp [hk]
      · simp [hk]
    refine ⟨fun hk => ⟨hev, ?_⟩, ?_, ?_⟩
    · rw [hflg, if_neg hk]; omega
    · rw [hev, hflg]
      split <;> omega
    · rw [hev]
  · simp only [stepShip, h]
    exact ⟨fun _ => ⟨by simp [shipEventCount, hfr.1],
      by simp [shipFlagCount, hfr.2]⟩,
      by simp [shipEventCount, shipFlagCount, hfr.1, hfr.2],
      by simp [shipEventCount, hfr.1]⟩
  · have href := ((classifyShip_refs nl nn acc.db row).2 e d h).1
    simp only [stepShip, h]
    have hflg : shipFlagCount (insertIssueEvent d e) k = shipFlagCount acc.db k := by
      simp [shipFlagCount, insertIssueEvent, hfr.2]
    have hev : shipEventCount (insertIssueEvent d e) k =
        shipEventCount acc.db k + (if row.shipping_log_key = k then 1 else 0) := by
      simp only [shipEventCount, insertIssueEvent, List.countP_append, hfr.1, href,
        List.countP_cons, List.countP_nil]
      by_cases hk : row.shipping_log_key = k
      · simp [hk]
      · simp [hk]
    refine ⟨fun hk => ⟨?_, hflg⟩, ?_, ?_⟩
    · rw [hev, if_neg hk]; omega
    · rw [hev, hflg]
      split <;> omega
    · rw [hev]
      split <;> omega

theorem foldl_stepProd_count_bound (nl nn : String → Option String)
    (rows : List ProdRow) (acc : RunTotals) (k : Nat) :
    prodEventCount (rows.foldl (stepProd nl nn) acc).db k +
        prodFlagCount (rows.foldl (stepProd nl nn) acc).db k ≤
      prodEventCount acc.db k + prodFlagCount acc.db k +
        rows.countP (fun r => r.production_log_key == k) := by
  induction rows generalizing acc with
  | nil => simp
  | cons r rs ih =>
    rw [List.foldl_cons, List.countP_cons]
    have hstep := stepProd_count nl nn acc r k
    have hih := ih (stepProd nl nn acc r)
    by_cases hk : r.production_log_key = k
    · simp only [hk, beq_self_eq_true, if_pos]
      have := hstep.2.1
      omega
    · have heq := hstep.1 hk
      have : (r.production_log_key == k) = false := by simpa using hk
      rw [this]
      omega

theorem foldl_stepProd_event_mono (nl nn : String → Option String)
    (rows : List ProdRow) (acc : RunTotals) (k : Nat) :
    prodEventCount acc.db k ≤ prodEventCount (rows.foldl (stepProd nl nn) acc).db k := by
  induction rows generalizing acc with
  | nil => simp
  | cons r rs ih =>
    rw [List.foldl_cons]
    exact le_trans (stepProd_count nl nn acc r k).2.2 (ih (stepProd nl nn acc r))

theorem foldl_stepProd_stable (nl nn : String → Option String)
    (rows : List ProdRow) (acc : RunTotals) (k : Nat)
    (h : ∀ r ∈ rows, r.production_log_key ≠ k) :
    prodEventCount (rows.foldl (stepProd nl nn) acc).db k = prodEventCount acc.db k ∧
    prodFlagCount (rows.foldl (stepProd nl nn) acc).db k = prodFlagCount acc.db k := by
  induction rows generalizing acc with
  | nil => exact ⟨rfl, rfl⟩
  | cons r rs ih =>
    rw [List.foldl_cons]
    have hstep := (stepProd_count nl nn acc r k).1 (h r (by simp))
    have hih := ih (stepProd nl nn acc r) (fun r' hr' => h r' (by simp [hr']))
    exact ⟨hih.1.trans hstep.1, hih.2.trans hstep.2⟩

theorem foldl_stepShip_count_bound (nl nn : String → Option String)
    (rows : List ShipRow) (acc : RunTotals) (k : Nat) :
    shipEventCount (rows.foldl (stepShip nl nn) acc).db k +
        shipFlagCount (rows.foldl (stepShip nl nn) acc).db k ≤
      shipEventCount acc.db k + shipFlagCount acc.db k +
        rows.countP (fun r => r.shipping_log_key == k) := by
  induction rows generalizing acc with
  | nil => simp
  | cons r rs ih =>
    rw [List.foldl_cons, List.countP_cons]
    have hstep := stepShip_count nl nn acc r k
    have hih := ih (stepShip nl nn acc r)
    by_cases hk : r.shipping_log_key = k
    · simp only [hk, beq_self_eq_true, if_pos]
      have := hstep.2.1
      omega
    · have heq := hstep.1 hk
      have : (r.shipping_log_key == k) = false := by simpa using hk
      rw [this]
      omega

theorem foldl_stepShip_event_mono (nl nn : String → Option String)
    (rows : List ShipRow) (acc : RunTotals) (k : Nat) :
    shipEventCount acc.db k ≤ shipEventCount (rows.foldl (stepShip nl nn) acc).db k := by
  induction rows generalizing acc with
  | nil => simp
  | cons r rs ih =>
    rw [List.foldl_cons]
    exact le_trans (stepShip_count nl nn acc r k).2.2 (ih (stepShip nl nn acc r))

theorem foldl_stepShip_stable (nl nn : String → Option String)
    (rows : List ShipRow) (acc : RunTotals) (k : Nat)
    (h : ∀ r ∈ rows, r.shipping_log_key ≠ k) :
    shipEventCount (rows.foldl (stepShip nl nn) acc).db k = shipEventCount acc.db k ∧
    shipFlagCount (rows.foldl (stepShip nl nn) acc).db k = shipFlagCount acc.db k := by
  induction rows generalizing acc with
  | nil => exact ⟨rfl, rfl⟩
  | cons r rs ih =>
    rw [List.foldl_cons]
    have hstep := (stepShip_count nl nn acc r k).1 (h r (by simp))
    have hih := ih (stepShip nl nn acc r) (fun r' hr' => h r' (by simp [hr']))
    exact ⟨hih.1.trans hstep.1, hih.2.trans hstep.2⟩

theorem selectProdBatch_no_event (db : DB) (n : Nat) (r : ProdRow)
    (hr : r ∈ selectProdBatch db n) :
    hasProdEvent db r.production_log_key = false := by
  have hm := List.mem_of_mem_take hr
  have hp := List.of_mem_filter hm
  simpa using hp

theorem selectShipBatch_no_event (db : DB) (n : Nat) (r : ShipRow)
    (hr : r ∈ selectShipBatch db n) :
    hasShipEvent db r.shipping_log_key = false := by
  have hm := List.mem_of_mem_take hr
  have hp := List.of_mem_filter hm
  simpa using hp

theorem selectProdBatch_countP_le_one (db : DB) (n k : Nat)
    (hnodup : (db.prodLogs.map (fun r => r.production_log_key)).Nodup) :
    (selectProdBatch db n).countP (fun r => r.production_log_key == k) ≤ 1 := by
  have hsub : List.Sublist (selectProdBatch db n) db.prodLogs :=
    (List.take_sublist _ _).trans (List.filter_sublist _)
  have h1 := hsub.countP_le (fun r => r.production_log_key == k)
  have h2 : db.prodLogs.countP (fun r => r.production_log_key == k) =
      (db.prodLogs.map (fun r => r.production_log_key)).count k := by
    simp [List.count, List.countP_map]
    rfl
  have h3 := List.nodup_iff_count_le_one.mp hnodup k
  omega

theorem selectShipBatch_countP_le_one (db : DB) (n k : Nat)
    (hnodup : (db.shipLogs.map (fun r => r.shipping_log_key)).Nodup) :
    (selectShipBatch db n).countP (fun r => r.shipping_log_key == k) ≤ 1 := by
  have hsub : List.Sublist (selectShipBatch db n) db.shipLogs :=
    (List.take_sublist _ _).trans (List.filter_sublist _)
  have h1 := hsub.countP_le (fun r => r.shipping_log_key == k)
  have h2 : db.shipLogs.countP (fun r => r.shipping_log_key == k) =
      (db.shipLogs.map (fun r => r.shipping_log_key)).count k := by
    simp [List.count, List.countP_map]
    rfl
  have h3 := List.nodup_iff_count_le_one.mp hnodup k
  omega

theorem hasProdEvent_iff_count (db : DB) (k : Nat) :
    hasProdEvent db k = true ↔ 0 < prodEventCount db k := by
  rw [hasProdEvent, prodEventCount, List.any_eq_true, List.countP_pos_iff]

theorem hasShipEvent_iff_count (db : DB) (k : Nat) :
    hasShipEvent db k = true ↔ 0 < shipEventCount db k := by
  rw [hasShipEvent, shipEventCount, List.any_eq_true, List.countP_pos_iff]

/-- C1 (amended): per committed per-source batch, every selected record
receives at most one new outcome — exactly one flag if rejected, exactly
one issue event if accepted with positive quantity, and neither if
accepted with quantity 0 — and a record referenced by an issue event is
never selected again, so its event count stays exactly its current count
across any further run; flagged records, however, are reselected by later
runs and can accumulate one flag per run (see the counterexample), so the
original "exactly one outcome forever, never more than one" is false. -/

theorem exactly_one_outcome_per_batch
    (nl nn : String → Option String) (db : DB) (n : Nat) :
    ((db.prodLogs.map (fun r => r.production_log_key)).Nodup →
      ∀ r ∈ selectProdBatch db n,
        prodEventCount db r.production_log_key = 0 ∧
        prodEventCount (processProductionLogs nl nn db n).1 r.production_log_key +
            prodFlagCount (processProductionLogs nl nn db n).1 r.production_log_key ≤
          prodFlagCount db r.production_log_key + 1) ∧
    (∀ k, 1 ≤ prodEventCount db k →
      prodEventCount (processProductionLogs nl nn db n).1 k = prodEventCount db k) ∧
    ((db.shipLogs.map (fun r => r.shipping_log_key)).Nodup →
      ∀ r ∈ selectShipBatch db n,
        shipEventCount db r.shipping_log_key = 0 ∧
        shipEventCount (processShippingLogs nl nn db n).1 r.shipping_log_key +
            shipFlagCount (processShippingLogs nl nn db n).1 r.shipping_log_key ≤
          shipFlagCount db r.shipping_log_key + 1) ∧
    (∀ k, 1 ≤ shipEventCount db k →
      shipEventCount (processShippingLogs nl nn db n).1 k = shipEventCount db k) := by
  refine ⟨fun hnodup r hr => ?_, fun k hk => ?_, fun hnodup r hr => ?_, fun k hk => ?_⟩
  · have h0 : prodEventCount db r.production_log_key = 0 := by
      have := selectProdBatch_no_event db n r hr
      rw [prodEventCount, List.countP_eq_zero]
      intro e he
      have h2 := List.any_eq_false.mp this e he
      simpa using h2
    refine ⟨h0, ?_⟩
    have hb := foldl_stepProd_count_bound nl nn (selectProdBatch db n) ⟨db, 0, 0⟩
      r.production_log_key
    have hc := selectProdBatch_countP_le_one db n r.production_log_key hnodup
    dsimp only at hb
    simp only [processProductionLogs]
    omega
  · have htrue : hasProdEvent db k = true := (hasProdEvent_iff_count db k).mpr (by omega)
    have hne : ∀ r ∈ selectProdBatch db n, r.production_log_key ≠ k := by
      intro r hr heq
      have := selectProdBatch_no_event db n r hr
      rw [heq] at this
      rw [this] at htrue
      cases htrue
    have := (foldl_stepProd_stable nl nn (selectProdBatch db n) ⟨db, 0, 0⟩ k hne).1
    simpa [processProductionLogs] using this
  · have h0 : shipEventCount db r.shipping_log_key = 0 := by
      have := selectShipBatch_no_event db n r hr
      rw [shipEventCount, List.countP_eq_zero]
      intro e he
      have h2 := List.any_eq_false.mp this e he
      simpa using h2
    refine ⟨h0, ?_⟩
    have hb := foldl_stepShip_count_bound nl nn (selectShipBatch db n) ⟨db, 0, 0⟩
      r.shipping_log_key
    have hc := selectShipBatch_countP_le_one db n r.shipping_log_key hnodup
    dsimp only at hb
    simp only [processShippingLogs]
    omega
  · have htrue : hasShipEvent db k = true := (hasShipEvent_iff_count db k).mpr (by omega)
    have hne : ∀ r ∈ selectShipBatch db n, r.shipping_log_key ≠ k := by
      intro r hr heq
      have := selectShipBatch_no_event db n r hr
      rw [heq] at this
      rw [this] at htrue
      cases htrue
    have := (foldl_stepShip_stable nl nn (selectShipBatch db n) ⟨db, 0, 0⟩ k hne).1
    simpa [processShippingLogs] using this

/-- C2 (amended): each per-source pass selects only records of its source
with no existing issue event referencing them (the selection predicate
does not consult data-quality flags), so a record that received an event
is never selected again — but a record that was merely flagged is
selected again by the next run, which creates a duplicate flag (see the
counterexample), so "a record that received an outcome — accepted or
flagged — is never selected again" and "a second run selects zero
records" are false. -/

theorem unprocessed_selection_by_event_only
    (nl nn : String → Option String) (db : DB) (n : Nat) :
    (∀ r ∈ selectProdBatch db n, hasProdEvent db r.production_log_key = false) ∧
    (∀ k, hasProdEvent db k = true →
      ∀ r ∈ selectProdBatch db n, r.production_log_key ≠ k) ∧
    (∀ k, hasProdEvent db k = true →
      hasProdEvent (processProductionLogs nl nn db n).1 k = true) ∧
    (∀ r ∈ selectShipBatch db n, hasShipEvent db r.shipping_log_key = false) ∧
    (∀ k, hasShipEvent db k = true →
      ∀ r ∈ selectShipBatch db n, r.shipping_log_key ≠ k) ∧
    (∀ k, hasShipEvent db k = true →
      hasShipEvent (processShippingLogs nl nn db n).1 k = true) := by
  refine ⟨fun r hr => selectProdBatch_no_event db n r hr,
    fun k hk r hr heq => ?_, fun k hk => ?_,
    fun r hr => selectShipBatch_no_event db n r hr,
    fun k hk r hr heq => ?_, fun k hk => ?_⟩
  · have := selectProdBatch_no_event db n r hr
    rw [heq, hk] at this
    cases this
  · rw [hasProdEvent_iff_count] at hk ⊢
    have hm := foldl_stepProd_event_mono nl nn (selectProdBatch db n) ⟨db, 0, 0⟩ k
    dsimp only at hm
    simp only [processProductionLogs]
    omega
  · have := selectShipBatch_no_event db n r hr
    rw [heq, hk] at this
    cases this
  · rw [hasShipEvent_iff_count] at hk ⊢
    have hm := foldl_stepShip_event_mono nl nn (selectShipBatch db n) ⟨db, 0, 0⟩ k
    dsimp only at hm
    simp only [processShippingLogs]
    omega

theorem exactly_one_outcome_counterexample :
    prodFlagCount (processProductionLogs normId normId
      (processProductionLogs normId normId dbReflag 500).1 500).1 1 = 2 := by
  decide

theorem exactly_one_outcome_per_batch_witness :
    (prodEventCount dbNoIssue 1 = 0 ∧
      prodEventCount (processProductionLogs normId normId dbNoIssue 500).1 1 +
          prodFlagCount (processProductionLogs normId normId dbNoIssue 500).1 1 ≤
        prodFlagCount dbNoIssue 1 + 1) ∧
    prodEventCount (processProductionLogs normId normId dbEvented 500).1 1 =
      prodEventCount dbEvented 1 :=
  ⟨(exactly_one_outcome_per_batch normId normId dbNoIssue 500).1 (by decide)
      prodRowNoIssue (by decide),
    (exactly_one_outcome_per_batch normId normId dbEvented 500).2.1 1 (by decide)⟩

theorem unprocessed_selection_counterexample :
    (selectProdBatch (processAllLogs normId normId dbReflag 500).1 500).length = 1 ∧
    (processAllLogs normId normId
      (processAllLogs normId normId dbReflag 500).1 500).2.1 = (0, 1) ∧
    (processAllLogs normId normId
      (processAllLogs normId normId dbReflag 500).1 500).1.flags.length = 2 := by
  decide

theorem unprocessed_selection_by_event_only_witness :
    hasProdEvent dbReflag prodRowBadLot.production_log_key = false ∧
    hasProdEvent (processProductionLogs normId normId dbEvented 500).1 1 = true :=
  ⟨(unprocessed_selection_by_event_only normId normId dbReflag 500).1
      prodRowBadLot (by decide),
    (unprocessed_selection_by_event_only normId normId dbEvented 500).2.2.1 1
      (by decide)⟩
